import Mathlib

/-!
Verification development for the Trimgram follower-analysis pipeline.

The backend core (session store, pacer, analysis engine, unfollow
executor) is modelled from the specification; the frontend pieces
(`api.js` login, `App.jsx` handleLogin, `ResultsList`/`ResultRow`) are
embedded from the repository sources.
-/

namespace Trimgram

/-- Modelled from the spec: profile fields of an account as returned by the
external client capability (spec section 3, NonFollower fields). The backend
integration layer is not in the repository snapshot. -/
structure AccountInfo where
  username : String
  full_name : String
  profile_pic_url : String
deriving Repr, DecidableEq, Inhabited

/-- Modelled from the spec: the External Client Capability (spec section 6),
restricted to the read-only calls the Analysis Engine makes. `following` and
`followers` are in fetch order; `recentPosts`, `likers` and `commenters`
return `none` when that particular upstream fetch fails (transient error).
`commenters` is a multiset, one entry per comment. The concrete instagrapi
client is not in the repository snapshot. -/
structure Capability where
  following : List Nat
  followers : List Nat
  info : Nat → AccountInfo
  recentPosts : Nat → Option (List Nat)
  likers : Nat → Option (List Nat)
  commenters : Nat → Option (List Nat)

/-- Modelled from the spec: the configuration surface the Analysis Engine
consumes (spec section 6): posts-per-account limit and results cap. -/
structure Config where
  postsLimit : Nat
  resultsCap : Nat
deriving Repr, DecidableEq

/-- Modelled from the spec (section 4.3 step 4): fetch up to `postsLimit`
recent posts of `acc`, then the likers and commenters of each; `likes_count`
counts the posts whose likers include the session account, `comments_count`
counts the session account's comments across those posts. Returns `none` when
any of the fetches for this account fails. The analysis service is not in the
repository snapshot. -/
def fetchCounts (sessionId : Nat) (cap : Capability) (cfg : Config) (acc : Nat) :
    Option (Nat × Nat) := do
  let posts ← cap.recentPosts acc
  let posts := posts.take cfg.postsLimit
  let likersLists ← posts.mapM cap.likers
  let commentersLists ← posts.mapM cap.commenters
  some ((likersLists.filter (fun ls => ls.contains sessionId)).length,
        (commentersLists.map (fun cs => cs.count sessionId)).sum)

/-- Modelled from the spec (section 4.3 step 5): a failed fetch for an account
is absorbed into the sentinel score (0 likes, 0 comments), never an error. -/
def scoreAccount (sessionId : Nat) (cap : Capability) (cfg : Config) (acc : Nat) :
    Nat × Nat :=
  (fetchCounts sessionId cap cfg acc).getD (0, 0)

/-- Modelled from the spec (section 4.3 step 2): the accounts followed that do
not follow back, in original fetch order. -/
def nonFollowers (cap : Capability) : List Nat :=
  cap.following.filter (fun a => ! cap.followers.contains a)

/-- Modelled from the spec: the NonFollower record (spec section 3), with
`total_score = likes_count + comments_count`. -/
structure NonFollower where
  user_id : Nat
  username : String
  full_name : String
  profile_pic_url : String
  likes_count : Nat
  comments_count : Nat
  total_score : Nat
deriving Repr, DecidableEq

/-- Modelled from the spec: build the scored NonFollower entry for one
account (spec section 4.3 step 4). -/
def mkNonFollower (sessionId : Nat) (cap : Capability) (cfg : Config) (acc : Nat) :
    NonFollower :=
  let s := scoreAccount sessionId cap cfg acc
  { user_id := acc
    username := (cap.info acc).username
    full_name := (cap.info acc).full_name
    profile_pic_url := (cap.info acc).profile_pic_url
    likes_count := s.1
    comments_count := s.2
    total_score := s.1 + s.2 }

/-- Modelled from the spec (section 4.3 step 6): comparison used for ranking —
ascending by `total_score`, ties broken by the original fetch position (the
first component), which is exactly a stable sort by score. -/
def keyLE (p q : Nat × NonFollower) : Bool :=
  decide (p.2.total_score < q.2.total_score ∨
    (p.2.total_score = q.2.total_score ∧ p.1 ≤ q.1))

/-- Modelled from the spec (section 4.3 steps 4-6): score every non-follower,
attach original fetch positions, and sort by `keyLE`. -/
def rankedIndexed (sessionId : Nat) (cap : Capability) (cfg : Config) :
    List (Nat × NonFollower) :=
  (((nonFollowers cap).map (mkNonFollower sessionId cap cfg)).enum).mergeSort keyLE

/-- Modelled from the spec: the AnalysisResult record (spec section 3). -/
structure AnalysisResult where
  total_following : Nat
  total_followers : Nat
  total_non_followers : Nat
  non_followers_shown : Nat
  results : List NonFollower
deriving Repr, DecidableEq

/-- Modelled from the spec (section 4.3): the whole analysis computation for a
valid session — set difference, full-set scoring, stable ascending sort,
truncation to the cap, `non_followers_shown = min cap total`. The analysis
service itself is not in the repository snapshot. -/
def analyze (sessionId : Nat) (cap : Capability) (cfg : Config) : AnalysisResult :=
  { total_following := cap.following.length
    total_followers := cap.followers.length
    total_non_followers := (nonFollowers cap).length
    non_followers_shown := min cfg.resultsCap (nonFollowers cap).length
    results := ((rankedIndexed sessionId cap cfg).take cfg.resultsCap).map Prod.snd }

/-- Modelled from the spec (section 4.3 step 5): the capability identical to
`cap` except that the post fetch for account `a` fails with a transient
upstream error. -/
def failAt (cap : Capability) (a : Nat) : Capability :=
  { cap with recentPosts := fun b => if b = a then none else cap.recentPosts b }

/-- Concrete capability for the spec scenario: F = 1,2,3,4 and G = 2,4;
account 1 has no interactions, account 3 has 2 likes and 1 comment from the
session account (id 9). -/
def capScenario : Capability :=
  { following := [1, 2, 3, 4]
    followers := [2, 4]
    info := fun _ => { username := "u", full_name := "f", profile_pic_url := "p" }
    recentPosts := fun a => if a = 3 then some [30, 31] else some []
    likers := fun p => if p = 30 then some [9] else if p = 31 then some [9] else some []
    commenters := fun p => if p = 30 then some [9] else some [] }

/-- Concrete configuration matching the documented defaults. -/
def cfgScenario : Config := { postsLimit := 12, resultsCap := 100 }

/-- Modelled from the spec: the session-related error taxonomy (section 7).
The backend exception module is not in the repository snapshot. -/
inductive SessionError where
  | SessionNotFound
  | SessionExpired
  | SessionConflict
deriving Repr, DecidableEq

/-- Modelled from the spec: the Session record (section 3). -/
structure Session where
  token : Nat
  account_id : Nat
  created_at : Nat
  last_used_at : Nat
  external_handle : Nat
deriving Repr, DecidableEq

/-- Modelled from the spec: the in-memory Session Store (sections 3 and 4.1);
an association list keyed by token plus the single- versus multi-session
policy flag. The backend session_store module is not in the repository
snapshot. -/
structure Store where
  sessions : List (Nat × Session)
  singleMode : Bool
deriving Repr, DecidableEq

/-- Modelled from the spec: a session is live at `now` exactly when its
inactivity gap does not exceed the TTL (expiry when `now - last_used_at >
TTL`, section 4.1). -/
def liveAt (ttl now : Nat) (s : Session) : Bool :=
  now - s.last_used_at ≤ ttl

/-- First session stored under a token. -/
def findSession : List (Nat × Session) → Nat → Option Session
  | [], _ => none
  | (k, s) :: rest, tok => if k = tok then some s else findSession rest tok

/-- Remove every entry stored under a token. -/
def removeSession (l : List (Nat × Session)) (tok : Nat) : List (Nat × Session) :=
  l.filter (fun p => p.1 != tok)

/-- Refresh `last_used_at` of the entry stored under a token. -/
def touchSession (l : List (Nat × Session)) (tok now : Nat) : List (Nat × Session) :=
  l.map (fun p => if p.1 = tok then (p.1, { p.2 with last_used_at := now }) else p)

/-- Modelled from the spec (section 4.1, `get` plus the implicit `touch`): an
authorized access — unknown token fails with SessionNotFound; an expired
session fails with SessionExpired and is removed as a side effect; otherwise
`last_used_at` is refreshed to `now` and the session is returned. -/
def access (st : Store) (ttl tok now : Nat) : Store × Except SessionError Session :=
  match findSession st.sessions tok with
  | none => (st, .error .SessionNotFound)
  | some s =>
    if now - s.last_used_at > ttl then
      ({ st with sessions := removeSession st.sessions tok }, .error .SessionExpired)
    else
      ({ st with sessions := touchSession st.sessions tok now },
        .ok { s with last_used_at := now })

/-- Modelled from the spec (section 4.1, `create`): fails with SessionConflict
in single-session mode when a live session already exists; otherwise stores a
new session keyed by the freshly generated token (the token is a model input
standing for the cryptographically random value; insertion replaces any stale
entry under the same key, as a keyed map does). -/
def createSession (st : Store) (ttl handle accountId tok now : Nat) :
    Store × Except SessionError Nat :=
  if st.singleMode && st.sessions.any (fun p => liveAt ttl now p.2) then
    (st, .error .SessionConflict)
  else
    ({ st with sessions :=
        (tok, { token := tok, account_id := accountId, created_at := now,
                last_used_at := now, external_handle := handle })
          :: removeSession st.sessions tok },
      .ok tok)

/-- Modelled from the spec (section 4.1, `destroy`): idempotent removal. -/
def destroySession (st : Store) (tok : Nat) : Store :=
  { st with sessions := removeSession st.sessions tok }

/-- Is the outcome of an access a success? -/
def exceptOk : Except SessionError Session → Bool
  | .ok _ => true
  | .error _ => false

/-- Run a sequence of authorized accesses at the given times; `true` exactly
when every one of them succeeds. -/
def accessesAlive (st : Store) (ttl tok : Nat) : List Nat → Bool
  | [] => true
  | t :: ts =>
    let r := access st ttl tok t
    exceptOk r.2 && accessesAlive r.1 ttl tok ts

/-- Modelled from the spec: the operations the routing layer performs against
the Session Store, each tagged with the time at which it runs. -/
inductive StoreOp where
  | create (handle accountId tok now : Nat)
  | access (tok now : Nat)
  | destroy (tok now : Nat)
deriving Repr, DecidableEq

/-- The time at which an operation runs. -/
def StoreOp.time : StoreOp → Nat
  | .create _ _ _ n => n
  | .access _ n => n
  | .destroy _ n => n

/-- One Session Store transition. -/
def stepStore (ttl : Nat) (st : Store) : StoreOp → Store
  | .create h a tok now => (createSession st ttl h a tok now).1
  | .access tok now => (Trimgram.access st ttl tok now).1
  | .destroy tok _ => destroySession st tok

/-- Run a sequence of Session Store operations. -/
def runStore (ttl : Nat) (st : Store) (ops : List StoreOp) : Store :=
  ops.foldl (stepStore ttl) st

/-- Number of live sessions held by the store at `now`. -/
def liveCount (st : Store) (ttl now : Nat) : Nat :=
  (st.sessions.filter (fun p => liveAt ttl now p.2)).length

/-- Store invariant at time `T`: no session was used in the future, tokens
key the map uniquely, and in single-session mode at most one live session
exists. -/
def storeInv (st : Store) (ttl T : Nat) : Prop :=
  (∀ p ∈ st.sessions, p.2.last_used_at ≤ T) ∧
  (st.sessions.map Prod.fst).Nodup ∧
  (st.singleMode = true → liveCount st ttl T ≤ 1)

/-- Time of the last operation of a run (or `T0` for the empty run). -/
def finalTime (T0 : Nat) (ops : List StoreOp) : Nat :=
  ops.foldl (fun _ op => op.time) T0

/-- A concrete session: token 5, last used at time 0. -/
def sessScenario : Session :=
  { token := 5, account_id := 1, created_at := 0, last_used_at := 0,
    external_handle := 7 }

/-- Store holding only `sessScenario`, in single-session mode. -/
def storeScenario : Store :=
  { sessions := [(5, sessScenario)], singleMode := true }

/-- The empty store in single-session mode. -/
def emptyStore : Store := { sessions := [], singleMode := true }

/-- A concrete operation sequence: login, a refreshing access, a conflicting
second login attempt, logout, then a fresh login. -/
def opsScenario : List StoreOp :=
  [StoreOp.create 7 1 5 0, StoreOp.access 5 9, StoreOp.create 8 2 6 15,
   StoreOp.destroy 5 20, StoreOp.create 8 2 6 21]

/-- Modelled from the spec: the two external-call classes the Pacer
distinguishes (section 4.2): bulk scoring fetches and unfollow actions. -/
inductive CallClass where
  | bulkFetch
  | unfollowCall
deriving Repr, DecidableEq

/-- Modelled from the spec: Pacer state — the timestamp of the last permitted
call of each class (section 4.2), `none` before the first call. -/
structure PacerState where
  lastBulk : Option Nat
  lastUnfollow : Option Nat
deriving Repr, DecidableEq

/-- Last permitted timestamp of a class. -/
def PacerState.last (ps : PacerState) : CallClass → Option Nat
  | .bulkFetch => ps.lastBulk
  | .unfollowCall => ps.lastUnfollow

/-- Record a new last permitted timestamp for a class. -/
def PacerState.setLast (ps : PacerState) : CallClass → Nat → PacerState
  | .bulkFetch, t => { ps with lastBulk := some t }
  | .unfollowCall, t => { ps with lastUnfollow := some t }

/-- Modelled from the spec (section 4.2): the time at which a call requested
at `reqTime` is permitted — immediately if the class was never used or the
interval has already elapsed, otherwise the caller is suspended until exactly
the configured interval after the previous permitted call. -/
def grantTime (interval : CallClass → Nat) (ps : PacerState) (cls : CallClass)
    (reqTime : Nat) : Nat :=
  match ps.last cls with
  | none => reqTime
  | some t => max reqTime (t + interval cls)

/-- Modelled from the spec (section 4.2): `acquire` suspends until the call
is safe, returns at the grant time, and records it for the class. -/
def acquire (interval : CallClass → Nat) (ps : PacerState) (cls : CallClass)
    (reqTime : Nat) : PacerState × Nat :=
  (ps.setLast cls (grantTime interval ps cls reqTime),
    grantTime interval ps cls reqTime)

/-- Modelled from the spec (sections 4.2 and 5): concurrent callers are
serialized first-come-first-served; the queue of requests (class, arrival
time) is processed in order, yielding for each request the triple (class,
arrival time, permitted time). -/
def runPacer (interval : CallClass → Nat) (ps : PacerState) :
    List (CallClass × Nat) → List (CallClass × Nat × Nat)
  | [] => []
  | (cls, rt) :: reqs =>
    (cls, rt, grantTime interval ps cls rt) ::
      runPacer interval (ps.setLast cls (grantTime interval ps cls rt)) reqs

/-- Modelled from the spec: the possible results of the upstream unfollow
capability call (sections 4.4, 6 and 7). -/
inductive UpstreamUnfollowResult where
  | ok
  | alreadyNotFollowing
  | rateLimited
  | targetNotFound
  | transientError
deriving Repr, DecidableEq

/-- Modelled from the spec: the UnfollowOutcome record (section 3). -/
structure UnfollowOutcome where
  success : Bool
  message : String
deriving Repr, DecidableEq

/-- Modelled from the spec (section 4.4): map the single upstream result to
the reported outcome. Already-not-following is normalized to a
success-equivalent outcome (the documented idempotence guidance of section
4.4); the other upstream failures are reported as failures, never retried. -/
def normalizeUnfollow : UpstreamUnfollowResult → UnfollowOutcome
  | .ok => { success := true, message := "Unfollowed" }
  | .alreadyNotFollowing => { success := true, message := "Already not following" }
  | .rateLimited => { success := false, message := "Rate limited by upstream" }
  | .targetNotFound => { success := false, message := "Target not found" }
  | .transientError => { success := false, message := "Transient upstream error" }

/-- Modelled from the spec (section 4.4): the Unfollow Executor — touch the
session (propagating SessionNotFound or SessionExpired), acquire the Pacer
for the unfollow class, then issue the capability call exactly once;
`upstream` is the single response the capability would give to that one call,
and the Nat component counts the capability calls actually issued. -/
def unfollowExec (st : Store) (ttl tok now : Nat) (ps : PacerState)
    (interval : CallClass → Nat) (upstream : UpstreamUnfollowResult) :
    Store × PacerState × Nat × Except SessionError UnfollowOutcome :=
  match access st ttl tok now with
  | (st2, .error e) => (st2, ps, 0, .error e)
  | (st2, .ok _) =>
    ((st2, (acquire interval ps .unfollowCall now).1, 1,
      .ok (normalizeUnfollow upstream)))

/-- A JavaScript Error as thrown by the frontend api module: message plus the
optional `code` and `sessionToken` properties the login path attaches
(src/frontend/src/services/api.js, embedded in src/DEPLOYMENT.md). -/
structure JsError where
  message : String
  code : Option String
  sessionToken : Option String
deriving Repr, DecidableEq

/-- The JSON body of the login endpoint as the frontend reads it:
`data.session_token` on success, `data.detail.message` and
`data.detail.session_token` inside error bodies (api.js). -/
structure LoginData where
  session_token : String
  detail_message : Option String
  detail_session_token : Option String
deriving Repr, DecidableEq

/-- JavaScript `a || b` over an optional string: the default when the value
is absent or empty (both falsy). -/
def jsOr (s : Option String) (d : String) : String :=
  match s with
  | none => d
  | some v => if v = "" then d else v

/-- JavaScript `response.ok` — HTTP status in the 200-299 range. -/
def responseOk (status : Nat) : Bool :=
  200 ≤ status && status ≤ 299

/-- The api.js `login` function: returns the body when the response is ok; on
status 449 throws an error with code 2FA_REQUIRED carrying
`detail.session_token`; any other non-ok status throws a plain error with no
code (src/DEPLOYMENT.md lines 303-328). -/
def login (status : Nat) (data : LoginData) : Except JsError LoginData :=
  if responseOk status then .ok data
  else if status = 449 then
    .error { message := jsOr data.detail_message "2FA required",
             code := some "2FA_REQUIRED",
             sessionToken := data.detail_session_token }
  else
    .error { message := jsOr data.detail_message "Login failed",
             code := none, sessionToken := none }

/-- The view the App component renders (App.jsx `currentView`). -/
inductive View where
  | loginView
  | loading
  | results
deriving Repr, DecidableEq

/-- App component state (App.jsx). -/
structure AppState where
  currentView : View
  sessionToken : Option String
  analysisData : Option AnalysisResult
  errorMsg : Option String
deriving Repr, DecidableEq

/-- The fixed message App.jsx shows when login fails with 2FA_REQUIRED. -/
def twoFAMessage : String :=
  "This account has 2FA enabled. 2FA support is coming in a future update. Please disable 2FA temporarily to use Trimgram."

/-- The operations of the frontend api module (api.js). -/
inductive ApiCall where
  | loginCall
  | resolve2FACall
  | analyzeFollowersCall
  | unfollowUserCall
deriving Repr, DecidableEq

/-- App.jsx handleLogin: clear the error and show the loading view, call
login then analyzeFollowers, and show the results; when either call throws,
set the error message — the fixed 2FA message when the error code is
2FA_REQUIRED, the thrown message otherwise — and return to the login view.
The second component lists the api operations invoked. -/
def handleLogin (st : AppState) (loginResult : Except JsError LoginData)
    (analysisResult : Except JsError AnalysisResult) : AppState × List ApiCall :=
  match loginResult with
  | .error e =>
    ({ st with
        errorMsg := some (if e.code = some "2FA_REQUIRED" then twoFAMessage
          else e.message),
        currentView := .loginView }, [.loginCall])
  | .ok d =>
    match analysisResult with
    | .error e =>
      ({ st with
          sessionToken := some d.session_token,
          errorMsg := some (if e.code = some "2FA_REQUIRED" then twoFAMessage
            else e.message),
          currentView := .loginView }, [.loginCall, .analyzeFollowersCall])
    | .ok ar =>
      ({ st with
          sessionToken := some d.session_token,
          analysisData := some ar,
          errorMsg := none,
          currentView := .results }, [.loginCall, .analyzeFollowersCall])

/-- The App state on first render (App.jsx useState initializers). -/
def appInit : AppState :=
  { currentView := View.loginView, sessionToken := none, analysisData := none,
    errorMsg := none }

/-- A concrete login response body. -/
def dataScenario : LoginData :=
  { session_token := "tok", detail_message := some "Two factor required",
    detail_session_token := some "tmp" }

/-- ResultsList component state: the ids of users unfollowed this session
(src/unnamed/part_000, ResultsList `unfollowedUsers`). -/
structure ResultsListState where
  unfollowedUsers : List Nat
deriving Repr, DecidableEq

/-- The rows ResultsList renders: the analysis results, in their original
order, minus the unfollowed users (src/unnamed/part_000, `displayedResults`). -/
def displayedResults (results : List NonFollower) (st : ResultsListState) :
    List NonFollower :=
  results.filter (fun u => ! decide (u.user_id ∈ st.unfollowedUsers))

/-- ResultsList.handleUnfollow: await onUnfollow, and only when it resolves
add the user to the unfollowed set — a rejection propagates before the set
update, leaving the state unchanged (src/unnamed/part_000 lines 89-93). -/
def handleUnfollow (st : ResultsListState) (userId : Nat) (success : Bool) :
    ResultsListState :=
  if success then { unfollowedUsers := userId :: st.unfollowedUsers } else st

/-- Run a sequence of unfollow attempts (user id, resolved successfully?). -/
def runUnfollows (st : ResultsListState) (attempts : List (Nat × Bool)) :
    ResultsListState :=
  attempts.foldl (fun s p => handleUnfollow s p.1 p.2) st

/-- ResultRow local state (ResultRow.jsx). -/
structure RowState where
  showConfirmation : Bool
  loading : Bool
  error : String
deriving Repr, DecidableEq

/-- ResultRow.handleConfirm: set loading and clear the error; on rejection
show the thrown message (or the fallback) and stop loading (ResultRow.jsx
lines 16-27); on success the row is removed by the parent. -/
def handleConfirm (rs : RowState) (result : Except JsError Unit) : RowState :=
  match result with
  | .ok _ => { rs with loading := true, error := "" }
  | .error e =>
    { rs with loading := false, error := jsOr (some e.message) "Failed to unfollow" }

theorem keyLE_trans : ∀ (a b c : Nat × NonFollower), keyLE a b → keyLE b c → keyLE a c := by
  intro a b c h1 h2
  simp only [keyLE, decide_eq_true_eq] at h1 h2 ⊢
  omega

theorem keyLE_total : ∀ (a b : Nat × NonFollower), keyLE a b || keyLE b a := by
  intro a b
  simp only [keyLE, Bool.or_eq_true, decide_eq_true_eq]
  omega

theorem rankedIndexed_pairwise (s : Nat) (cap : Capability) (cfg : Config) :
    (rankedIndexed s cap cfg).Pairwise (fun p q => p.2.total_score < q.2.total_score ∨
      (p.2.total_score = q.2.total_score ∧ p.1 < q.1)) := by
  have hsorted : (rankedIndexed s cap cfg).Pairwise (fun p q => keyLE p q) :=
    List.sorted_mergeSort keyLE_trans keyLE_total _
  have hne : (rankedIndexed s cap cfg).Pairwise
      (fun p q : Nat × NonFollower => p.1 ≠ q.1) := by
    have hperm := List.mergeSort_perm
      (((nonFollowers cap).map (mkNonFollower s cap cfg)).enum) keyLE
    have hbase : (((nonFollowers cap).map (mkNonFollower s cap cfg)).enum).Pairwise
        (fun p q : Nat × NonFollower => p.1 ≠ q.1) := by
      have hrange := List.nodup_range
        (((nonFollowers cap).map (mkNonFollower s cap cfg)).length)
      rw [← List.enum_map_fst (((nonFollowers cap).map (mkNonFollower s cap cfg)))] at hrange
      rw [List.Nodup, List.pairwise_map] at hrange
      exact hrange
    exact ((hperm.pairwise_iff (fun h => Ne.symm h)).mpr hbase)
  refine (hsorted.and hne).imp ?_
  intro p q hpq
  obtain ⟨h1, h2⟩ := hpq
  simp only [keyLE, decide_eq_true_eq] at h1
  omega

/-- C1: the computed non-follower set is exactly the set difference
`following − followers`, and `total_non_followers` is its cardinality. -/
theorem analyze_set_difference (s : Nat) (cap : Capability) (cfg : Config)
    (hnd : cap.following.Nodup) :
    (∀ a, a ∈ nonFollowers cap ↔ a ∈ cap.following ∧ a ∉ cap.followers) ∧
    (analyze s cap cfg).total_non_followers =
      (cap.following.toFinset \ cap.followers.toFinset).card := by
  constructor
  · intro a
    simp [nonFollowers, List.mem_filter]
  · have h2 : (nonFollowers cap).Nodup := hnd.filter _
    have h1 : (nonFollowers cap).toFinset =
        cap.following.toFinset \ cap.followers.toFinset := by
      ext a
      simp [nonFollowers, List.mem_filter, Finset.mem_sdiff]
    calc (analyze s cap cfg).total_non_followers
        = (nonFollowers cap).length := rfl
      _ = (nonFollowers cap).toFinset.card := (List.toFinset_card_of_nodup h2).symm
      _ = (cap.following.toFinset \ cap.followers.toFinset).card := by rw [h1]

/-- Witness for C1 on the spec scenario F = 1,2,3,4, G = 2,4. -/
theorem analyze_set_difference_witness :
    (3 ∈ nonFollowers capScenario ↔
      3 ∈ capScenario.following ∧ 3 ∉ capScenario.followers) ∧
    (analyze 9 capScenario cfgScenario).total_non_followers =
      (capScenario.following.toFinset \ capScenario.followers.toFinset).card :=
  ⟨(analyze_set_difference 9 capScenario cfgScenario (by decide)).1 3,
   (analyze_set_difference 9 capScenario cfgScenario (by decide)).2⟩

/-- C2: the results sequence is sorted ascending by `total_score` (an earlier
entry never has a larger score), and the underlying ranking breaks score ties
by the stable original fetch position, so the order is deterministic. -/
theorem analyze_results_sorted (s : Nat) (cap : Capability) (cfg : Config) :
    ((analyze s cap cfg).results.map NonFollower.total_score).Pairwise (· ≤ ·) ∧
    (rankedIndexed s cap cfg).Pairwise (fun p q => p.2.total_score < q.2.total_score ∨
      (p.2.total_score = q.2.total_score ∧ p.1 < q.1)) := by
  have hmain := rankedIndexed_pairwise s cap cfg
  refine ⟨?_, hmain⟩
  show ((((rankedIndexed s cap cfg).take cfg.resultsCap).map Prod.snd).map
      NonFollower.total_score).Pairwise (· ≤ ·)
  rw [List.pairwise_map, List.pairwise_map]
  have htake := hmain.sublist (List.take_sublist cfg.resultsCap _)
  refine htake.imp ?_
  intro p q h
  omega

/-- C3: `non_followers_shown = min cap total_non_followers`; the ranking is a
permutation of the scored entries of the entire non-follower set (scoring runs
over the full set), and every retained entry scores no higher than every
entry dropped by the cap. -/
theorem analyze_cap_spec (s : Nat) (cap : Capability) (cfg : Config) :
    (analyze s cap cfg).non_followers_shown =
      min cfg.resultsCap (analyze s cap cfg).total_non_followers ∧
    (analyze s cap cfg).results.length = (analyze s cap cfg).non_followers_shown ∧
    List.Perm (rankedIndexed s cap cfg)
      (((nonFollowers cap).map (mkNonFollower s cap cfg)).enum) ∧
    ∀ p ∈ (rankedIndexed s cap cfg).take cfg.resultsCap,
      ∀ q ∈ (rankedIndexed s cap cfg).drop cfg.resultsCap,
        p.2.total_score ≤ q.2.total_score := by
  refine ⟨rfl, ?_, List.mergeSort_perm _ _, ?_⟩
  · show (((rankedIndexed s cap cfg).take cfg.resultsCap).map Prod.snd).length =
      min cfg.resultsCap (nonFollowers cap).length
    have hlen : (rankedIndexed s cap cfg).length = (nonFollowers cap).length := by
      rw [rankedIndexed, (List.mergeSort_perm _ _).length_eq, List.enum_length,
        List.length_map]
    rw [List.length_map, List.length_take, hlen]
  · have hmain := rankedIndexed_pairwise s cap cfg
    rw [← List.take_append_drop cfg.resultsCap (rankedIndexed s cap cfg),
      List.pairwise_append] at hmain
    intro p hp q hq
    have := hmain.2.2 p hp q hq
    omega

/-- C6: when the fetches for one account fail, that account gets the sentinel
score (0 likes, 0 comments, no error), every other account's entry is
unchanged, the non-follower set and totals are unchanged, and every
non-follower — the failing one included — still appears in the ranking, so a
single account's failure never fails the whole analysis. -/
theorem analyze_absorbs_failure (s : Nat) (cap : Capability) (cfg : Config) (a : Nat) :
    mkNonFollower s (failAt cap a) cfg a =
      { user_id := a
        username := (cap.info a).username
        full_name := (cap.info a).full_name
        profile_pic_url := (cap.info a).profile_pic_url
        likes_count := 0
        comments_count := 0
        total_score := 0 } ∧
    (∀ b, b ≠ a → mkNonFollower s (failAt cap a) cfg b = mkNonFollower s cap cfg b) ∧
    nonFollowers (failAt cap a) = nonFollowers cap ∧
    (analyze s (failAt cap a) cfg).total_non_followers =
      (analyze s cap cfg).total_non_followers ∧
    (∀ b ∈ nonFollowers (failAt cap a), ∃ p ∈ rankedIndexed s (failAt cap a) cfg,
      p.2 = mkNonFollower s (failAt cap a) cfg b) := by
  refine ⟨?_, ?_, rfl, rfl, ?_⟩
  · simp [mkNonFollower, scoreAccount, fetchCounts, failAt]
  · intro b hba
    have hfc : fetchCounts s (failAt cap a) cfg b = fetchCounts s cap cfg b := by
      simp [fetchCounts, failAt, hba]
    simp only [mkNonFollower, scoreAccount, hfc]
    simp [failAt]
  · intro b hb
    have hmem : mkNonFollower s (failAt cap a) cfg b ∈
        (nonFollowers (failAt cap a)).map (mkNonFollower s (failAt cap a) cfg) :=
      List.mem_map_of_mem _ hb
    rw [← List.enum_map_snd
      ((nonFollowers (failAt cap a)).map (mkNonFollower s (failAt cap a) cfg))] at hmem
    obtain ⟨p, hp, hps⟩ := List.mem_map.mp hmem
    exact ⟨p, (List.mergeSort_perm _ _).mem_iff.mpr hp, hps⟩

/-- Witness for C6: in the scenario capability with account 3 failing, account
3 gets the sentinel entry, account 1 is unaffected, and account 1 still
appears in the ranking. -/
theorem analyze_absorbs_failure_witness :
    mkNonFollower 9 (failAt capScenario 3) cfgScenario 3 =
      { user_id := 3
        username := (capScenario.info 3).username
        full_name := (capScenario.info 3).full_name
        profile_pic_url := (capScenario.info 3).profile_pic_url
        likes_count := 0
        comments_count := 0
        total_score := 0 } ∧
    mkNonFollower 9 (failAt capScenario 3) cfgScenario 1 =
      mkNonFollower 9 capScenario cfgScenario 1 ∧
    (∃ p ∈ rankedIndexed 9 (failAt capScenario 3) cfgScenario,
      p.2 = mkNonFollower 9 (failAt capScenario 3) cfgScenario 1) :=
  ⟨(analyze_absorbs_failure 9 capScenario cfgScenario 3).1,
   (analyze_absorbs_failure 9 capScenario cfgScenario 3).2.1 1 (by decide),
   (analyze_absorbs_failure 9 capScenario cfgScenario 3).2.2.2.2 1 (by decide)⟩

theorem findSession_removeSession (l : List (Nat × Session)) (tok : Nat) :
    findSession (removeSession l tok) tok = none := by
  induction l with
  | nil => rfl
  | cons p rest ih =>
    rcases p with ⟨k, s⟩
    by_cases h : k = tok
    · simpa [removeSession, List.filter_cons, h] using ih
    · simpa [removeSession, List.filter_cons, h, findSession] using ih

theorem touchSession_cons (k : Nat) (s0 : Session) (rest : List (Nat × Session))
    (tok now : Nat) :
    touchSession ((k, s0) :: rest) tok now =
      (if k = tok then (k, { s0 with last_used_at := now }) else (k, s0))
        :: touchSession rest tok now := by
  simp only [touchSession, List.map_cons]

theorem findSession_touchSession (l : List (Nat × Session)) (tok now : Nat) (s : Session)
    (h : findSession l tok = some s) :
    findSession (touchSession l tok now) tok = some { s with last_used_at := now } := by
  induction l with
  | nil => simp [findSession] at h
  | cons p rest ih =>
    rcases p with ⟨k, s0⟩
    rw [touchSession_cons]
    by_cases hk : k = tok
    · subst hk
      simp only [findSession, if_pos rfl] at h
      obtain rfl : s0 = s := by injection h
      rw [if_pos rfl]
      simp [findSession]
    · simp only [findSession, if_neg hk] at h
      rw [if_neg hk]
      simp only [findSession, if_neg hk]
      exact ih h

theorem accessesAlive_of_chain (ttl tok : Nat) (times : List Nat) :
    ∀ (st : Store) (s : Session),
      findSession st.sessions tok = some s →
      List.Chain (fun a b => a ≤ b ∧ b - a ≤ ttl) s.last_used_at times →
      accessesAlive st ttl tok times = true := by
  induction times with
  | nil =>
    intro st s _ _
    rfl
  | cons t ts ih =>
    intro st s hfind hchain
    cases hchain with
    | cons hstep hrest =>
      obtain ⟨hle, hgap⟩ := hstep
      have hnot : ¬ (t - s.last_used_at > ttl) := by omega
      have hacc : access st ttl tok t =
          ({ st with sessions := touchSession st.sessions tok t },
            Except.ok { s with last_used_at := t }) := by
        simp [access, hfind, hnot]
      simp only [accessesAlive, hacc, exceptOk, Bool.true_and]
      exact ih { st with sessions := touchSession st.sessions tok t }
        { s with last_used_at := t }
        (findSession_touchSession st.sessions tok t s hfind) hrest

/-- C4 counterexample: a session last used at 0 with TTL 10 is accessed at
time 11 — the access fails with SessionExpired and removes the entry, but a
second access does not fail identically: it fails with SessionNotFound. -/
theorem session_second_access_differs :
    (access storeScenario 10 5 11).2 = Except.error SessionError.SessionExpired ∧
    (access (access storeScenario 10 5 11).1 10 5 11).2 =
      Except.error SessionError.SessionNotFound ∧
    SessionError.SessionNotFound ≠ SessionError.SessionExpired :=
  ⟨rfl, rfl, by decide⟩

theorem access_not_found (st : Store) (ttl tok now : Nat)
    (h : findSession st.sessions tok = none) :
    access st ttl tok now = (st, Except.error SessionError.SessionNotFound) := by
  simp [access, h]

/-- C4 (amended): an access more than TTL after `last_used_at` fails with
SessionExpired and removes the entry — after which a second access also
fails, with SessionNotFound; an access within TTL succeeds and resets
`last_used_at`; and any chain of accesses whose gaps never exceed the TTL
keeps the session alive indefinitely. -/
theorem session_ttl_spec (st : Store) (ttl tok now : Nat) (s : Session)
    (hfind : findSession st.sessions tok = some s) :
    (now - s.last_used_at > ttl →
      (access st ttl tok now).2 = Except.error SessionError.SessionExpired ∧
      findSession (access st ttl tok now).1.sessions tok = none ∧
      ∀ now2, (access (access st ttl tok now).1 ttl tok now2).2 =
        Except.error SessionError.SessionNotFound) ∧
    (now - s.last_used_at ≤ ttl →
      (access st ttl tok now).2 = Except.ok { s with last_used_at := now } ∧
      findSession (access st ttl tok now).1.sessions tok =
        some { s with last_used_at := now }) ∧
    (∀ times : List Nat,
      List.Chain (fun a b => a ≤ b ∧ b - a ≤ ttl) s.last_used_at times →
      accessesAlive st ttl tok times = true) := by
  refine ⟨?_, ?_, fun times h => accessesAlive_of_chain ttl tok times st s hfind h⟩
  · intro hexp
    have hacc : access st ttl tok now =
        ({ st with sessions := removeSession st.sessions tok },
          Except.error SessionError.SessionExpired) := by
      simp [access, hfind, hexp]
    have hnone : findSession (access st ttl tok now).1.sessions tok = none := by
      rw [hacc]
      exact findSession_removeSession st.sessions tok
    refine ⟨by rw [hacc], hnone, ?_⟩
    intro now2
    rw [access_not_found (access st ttl tok now).1 ttl tok now2 hnone]
  · intro hok
    have hnot : ¬ (now - s.last_used_at > ttl) := by omega
    have hacc : access st ttl tok now =
        ({ st with sessions := touchSession st.sessions tok now },
          Except.ok { s with last_used_at := now }) := by
      simp [access, hfind, hnot]
    exact ⟨by rw [hacc],
      by rw [hacc]; exact findSession_touchSession st.sessions tok now s hfind⟩

/-- Witness for C4 on the concrete one-session store with TTL 10: expiry at
time 11, removal, SessionNotFound on re-access, a successful refresh at time
9, and a keep-alive chain 9, 18, 27. -/
theorem session_ttl_spec_witness :
    ((access storeScenario 10 5 11).2 = Except.error SessionError.SessionExpired ∧
      findSession (access storeScenario 10 5 11).1.sessions 5 = none ∧
      (access (access storeScenario 10 5 11).1 10 5 12).2 =
        Except.error SessionError.SessionNotFound) ∧
    ((access storeScenario 10 5 9).2 =
        Except.ok { sessScenario with last_used_at := 9 } ∧
      findSession (access storeScenario 10 5 9).1.sessions 5 =
        some { sessScenario with last_used_at := 9 }) ∧
    accessesAlive storeScenario 10 5 [9, 18, 27] = true := by
  have h11 := session_ttl_spec storeScenario 10 5 11 sessScenario (by decide)
  have h9 := session_ttl_spec storeScenario 10 5 9 sessScenario (by decide)
  obtain ⟨e1, e2, e3⟩ := h11.1 (by decide)
  have hchain : List.Chain (fun a b => a ≤ b ∧ b - a ≤ 10)
      sessScenario.last_used_at [9, 18, 27] :=
    List.Chain.cons ⟨by decide, by decide⟩ (List.Chain.cons ⟨by decide, by decide⟩
      (List.Chain.cons ⟨by decide, by decide⟩ List.Chain.nil))
  exact ⟨⟨e1, e2, e3 12⟩, h9.2.1 (by decide), h11.2.2 [9, 18, 27] hchain⟩

theorem liveAt_mono (ttl T T2 : Nat) (s : Session) (hT : T ≤ T2)
    (h : liveAt ttl T2 s = true) : liveAt ttl T s = true := by
  simp only [liveAt, decide_eq_true_eq] at h ⊢
  omega

theorem liveCount_mono_time (st : Store) (ttl T T2 : Nat) (hT : T ≤ T2) :
    liveCount st ttl T2 ≤ liveCount st ttl T := by
  unfold liveCount
  refine List.Sublist.length_le (List.monotone_filter_right _ ?_)
  intro p hp
  exact liveAt_mono ttl T T2 p.2 hT hp

theorem storeInv_mono (st : Store) (ttl T T2 : Nat) (hT : T ≤ T2)
    (h : storeInv st ttl T) : storeInv st ttl T2 := by
  obtain ⟨hlast, hnd, hcount⟩ := h
  exact ⟨fun p hp => le_trans (hlast p hp) hT, hnd,
    fun hm => le_trans (liveCount_mono_time st ttl T T2 hT) (hcount hm)⟩

theorem touchSession_map_fst (l : List (Nat × Session)) (tok now : Nat) :
    (touchSession l tok now).map Prod.fst = l.map Prod.fst := by
  induction l with
  | nil => rfl
  | cons p rest ih =>
    rcases p with ⟨k, s0⟩
    rw [touchSession_cons]
    by_cases hk : k = tok
    · simp [hk, ih]
    · simp [hk, ih]

theorem touchSession_not_mem (l : List (Nat × Session)) (tok now : Nat)
    (h : tok ∉ l.map Prod.fst) : touchSession l tok now = l := by
  induction l with
  | nil => rfl
  | cons p rest ih =>
    rcases p with ⟨k, s0⟩
    simp only [List.map_cons, List.mem_cons] at h
    push_neg at h
    rw [touchSession_cons, if_neg (fun hk => h.1 hk.symm), ih h.2]

theorem touchSession_last_le (l : List (Nat × Session)) (tok now T : Nat)
    (hlast : ∀ p ∈ l, p.2.last_used_at ≤ T) (hnow : now ≤ T) :
    ∀ p ∈ touchSession l tok now, p.2.last_used_at ≤ T := by
  intro p hp
  simp only [touchSession] at hp
  obtain ⟨q, hq, rfl⟩ := List.mem_map.mp hp
  by_cases hk : q.1 = tok
  · simpa [hk] using hnow
  · simpa [hk] using hlast q hq

theorem liveCount_touch (ttl tok T : Nat) (s : Session) :
    ∀ (l : List (Nat × Session)), (l.map Prod.fst).Nodup →
      findSession l tok = some s → liveAt ttl T s = true →
      ((touchSession l tok T).filter (fun p => liveAt ttl T p.2)).length =
        (l.filter (fun p => liveAt ttl T p.2)).length := by
  intro l
  induction l with
  | nil =>
    intro _ hfind _
    simp [findSession] at hfind
  | cons p rest ih =>
    intro hnd hfind hlive
    rcases p with ⟨k, s0⟩
    simp only [List.map_cons, List.nodup_cons] at hnd
    obtain ⟨hknotin, hndrest⟩ := hnd
    rw [touchSession_cons]
    by_cases hk : k = tok
    · subst hk
      simp only [findSession, if_pos rfl] at hfind
      have hs : s0 = s := by injection hfind
      rw [← hs] at hlive
      rw [if_pos rfl, touchSession_not_mem rest k T hknotin]
      have htouched : liveAt ttl T { s0 with last_used_at := T } = true := by
        simp [liveAt]
      simp [List.filter_cons, htouched, hlive]
    · simp only [findSession, if_neg hk] at hfind
      rw [if_neg hk]
      simp only [List.filter_cons]
      have hrec := ih hndrest hfind hlive
      by_cases hl : liveAt ttl T s0 = true
      · simp only [if_pos hl, List.length_cons]
        omega
      · simp only [if_neg hl]
        exact hrec

theorem liveCount_zero_of_not_any (l : List (Nat × Session)) (ttl T : Nat)
    (h : l.any (fun p => liveAt ttl T p.2) = false) :
    (l.filter (fun p => liveAt ttl T p.2)).length = 0 := by
  simp only [List.any_eq_false] at h
  rw [List.length_eq_zero, List.filter_eq_nil_iff]
  exact h

theorem storeInv_step (ttl T : Nat) (st : Store) (op : StoreOp)
    (hinv : storeInv st ttl T) (hT : T ≤ op.time) :
    storeInv (stepStore ttl st op) ttl op.time := by
  obtain ⟨hlast, hnd, hcount⟩ := storeInv_mono st ttl T op.time hT hinv
  cases op with
  | create h a tok now =>
    simp only [stepStore, StoreOp.time] at *
    unfold createSession
    by_cases hg : (st.singleMode && st.sessions.any fun p => liveAt ttl now p.2) = true
    · rw [if_pos hg]
      exact ⟨hlast, hnd, hcount⟩
    · rw [if_neg hg]
      refine ⟨?_, ?_, ?_⟩
      · intro p hp
        rcases List.mem_cons.mp hp with rfl | hp2
        · exact le_refl now
        · exact hlast p (List.mem_of_mem_filter hp2)
      · simp only [List.map_cons, List.nodup_cons]
        constructor
        · intro hmem
          obtain ⟨p, hp, hfst⟩ := List.mem_map.mp hmem
          have hne := List.of_mem_filter hp
          simp only [bne_iff_ne, ne_eq] at hne
          exact hne hfst
        · exact List.Nodup.sublist ((List.filter_sublist _).map Prod.fst) hnd
      · intro hm
        rw [hm, Bool.true_and, Bool.not_eq_true] at hg
        have hzero : ((removeSession st.sessions tok).filter
            (fun p => liveAt ttl now p.2)).length = 0 := by
          refine liveCount_zero_of_not_any _ ttl now ?_
          rw [List.any_eq_false]
          intro p hp
          have hall := List.any_eq_false.mp hg
          exact hall p (List.mem_of_mem_filter hp)
        simp only [liveCount, List.filter_cons]
        have hnew : liveAt ttl now
            { token := tok, account_id := a, created_at := now,
              last_used_at := now, external_handle := h } = true := by
          simp [liveAt]
        simp [hnew, hzero]
  | access tok now =>
    simp only [stepStore, StoreOp.time] at *
    cases hfind : findSession st.sessions tok with
    | none =>
      rw [access_not_found st ttl tok now hfind]
      exact ⟨hlast, hnd, hcount⟩
    | some s =>
      by_cases hexp : now - s.last_used_at > ttl
      · have hacc : Trimgram.access st ttl tok now =
            ({ st with sessions := removeSession st.sessions tok },
              Except.error SessionError.SessionExpired) := by
          simp [Trimgram.access, hfind, hexp]
        rw [hacc]
        refine ⟨?_, ?_, ?_⟩
        · intro p hp
          exact hlast p (List.mem_of_mem_filter hp)
        · exact List.Nodup.sublist ((List.filter_sublist _).map Prod.fst) hnd
        · intro hm
          refine le_trans ?_ (hcount hm)
          exact List.Sublist.length_le (((List.filter_sublist _).filter _))
      · have hacc : Trimgram.access st ttl tok now =
            ({ st with sessions := touchSession st.sessions tok now },
              Except.ok { s with last_used_at := now }) := by
          simp [Trimgram.access, hfind, hexp]
        rw [hacc]
        refine ⟨?_, ?_, ?_⟩
        · exact touchSession_last_le st.sessions tok now now hlast (le_refl now)
        · rw [touchSession_map_fst]
          exact hnd
        · intro hm
          have hlive : liveAt ttl now s = true := by
            simp only [liveAt, decide_eq_true_eq]
            omega
          unfold liveCount
          rw [liveCount_touch ttl tok now s st.sessions hnd hfind hlive]
          exact hcount hm
  | destroy tok now =>
    simp only [stepStore, StoreOp.time] at *
    refine ⟨?_, ?_, ?_⟩
    · intro p hp
      exact hlast p (List.mem_of_mem_filter hp)
    · exact List.Nodup.sublist ((List.filter_sublist _).map Prod.fst) hnd
    · intro hm
      refine le_trans ?_ (hcount hm)
      exact List.Sublist.length_le (((List.filter_sublist _).filter _))

theorem storeInv_run (ttl : Nat) : ∀ (ops : List StoreOp) (st : Store) (T0 : Nat),
    storeInv st ttl T0 →
    List.Chain (fun a b => a ≤ b) T0 (ops.map StoreOp.time) →
    storeInv (runStore ttl st ops) ttl (finalTime T0 ops) := by
  intro ops
  induction ops with
  | nil =>
    intro st T0 h _
    exact h
  | cons op rest ih =>
    intro st T0 h hchain
    cases hchain with
    | cons hle hrest =>
      exact ih (stepStore ttl st op) op.time (storeInv_step ttl T0 st op h hle) hrest

/-- C8: in single-session mode, every store reachable by a time-monotone run
of create/access/destroy operations from an invariant-satisfying state holds
at most one live session (and well-formed key and timestamp bookkeeping), and
`create` fails with SessionConflict whenever a live session already exists. -/
theorem single_session_spec (ttl : Nat) :
    (∀ (ops : List StoreOp) (st : Store) (T0 : Nat),
      storeInv st ttl T0 →
      List.Chain (fun a b => a ≤ b) T0 (ops.map StoreOp.time) →
      storeInv (runStore ttl st ops) ttl (finalTime T0 ops)) ∧
    (∀ (st : Store) (h a tok now : Nat), st.singleMode = true →
      (∃ p ∈ st.sessions, liveAt ttl now p.2 = true) →
      (createSession st ttl h a tok now).2 =
        Except.error SessionError.SessionConflict) := by
  refine ⟨storeInv_run ttl, ?_⟩
  intro st h a tok now hm hex
  obtain ⟨p, hp, hlive⟩ := hex
  have hany : st.sessions.any (fun p => liveAt ttl now p.2) = true :=
    List.any_eq_true.mpr ⟨p, hp, hlive⟩
  simp [createSession, hm, hany]

/-- Witness for C8: a concrete five-operation run from the empty store with
TTL 10, and a conflicting create against the store already holding a live
session. -/
theorem single_session_spec_witness :
    storeInv (runStore 10 emptyStore opsScenario) 10 (finalTime 0 opsScenario) ∧
    (createSession storeScenario 10 8 2 6 5).2 =
      Except.error SessionError.SessionConflict := by
  constructor
  · refine (single_session_spec 10).1 opsScenario emptyStore 0 ?_ ?_
    · exact ⟨by simp [emptyStore], by simp [emptyStore], by simp [emptyStore, liveCount]⟩
    · exact List.Chain.cons (by decide) (List.Chain.cons (by decide)
        (List.Chain.cons (by decide) (List.Chain.cons (by decide)
          (List.Chain.cons (by decide) List.Chain.nil))))
  · exact (single_session_spec 10).2 storeScenario 8 2 6 5 rfl
      ⟨(5, sessScenario), by decide, by decide⟩

theorem setLast_last_same (ps : PacerState) (cls : CallClass) (t : Nat) :
    (ps.setLast cls t).last cls = some t := by
  cases cls <;> rfl

theorem setLast_last_other (ps : PacerState) (c cls : CallClass) (t : Nat)
    (h : c ≠ cls) : (ps.setLast c t).last cls = ps.last cls := by
  cases c <;> cases cls <;> first | rfl | exact absurd rfl h

theorem grantTime_lb (interval : CallClass → Nat) (ps : PacerState)
    (cls : CallClass) (rt t : Nat) (h : ps.last cls = some t) :
    t + interval cls ≤ grantTime interval ps cls rt := by
  simp only [grantTime, h]
  omega

theorem runPacer_grant_lb (interval : CallClass → Nat) :
    ∀ (reqs : List (CallClass × Nat)) (ps : PacerState) (cls : CallClass) (t : Nat),
      ps.last cls = some t →
      ∀ g ∈ runPacer interval ps reqs, g.1 = cls → t + interval cls ≤ g.2.2 := by
  intro reqs
  induction reqs with
  | nil =>
    intro ps cls t _ g hg
    simp [runPacer] at hg
  | cons r rest ih =>
    intro ps cls t hlast g hg hcls
    rcases r with ⟨c, rt⟩
    simp only [runPacer, List.mem_cons] at hg
    rcases hg with rfl | hg
    · simp only at hcls
      subst hcls
      exact grantTime_lb interval ps c rt t hlast
    · by_cases hc : c = cls
      · subst hc
        have hlast2 : ((ps.setLast c (grantTime interval ps c rt)).last c) =
            some (grantTime interval ps c rt) := setLast_last_same ps c _
        have hlow := grantTime_lb interval ps c rt t hlast
        have hrec := ih (ps.setLast c (grantTime interval ps c rt)) c
          (grantTime interval ps c rt) hlast2 g hg hcls
        omega
      · have hlast2 : ((ps.setLast c (grantTime interval ps c rt)).last cls) =
            some t := by
          rw [setLast_last_other ps c cls _ hc]
          exact hlast
        exact ih _ cls t hlast2 g hg hcls

theorem runPacer_spacing (interval : CallClass → Nat) :
    ∀ (reqs : List (CallClass × Nat)) (ps : PacerState),
      (runPacer interval ps reqs).Pairwise
        (fun g1 g2 => g1.1 = g2.1 → g1.2.2 + interval g1.1 ≤ g2.2.2) := by
  intro reqs
  induction reqs with
  | nil =>
    intro ps
    exact List.Pairwise.nil
  | cons r rest ih =>
    intro ps
    rcases r with ⟨c, rt⟩
    simp only [runPacer]
    refine List.Pairwise.cons ?_ (ih _)
    intro g hg hcls
    simp only at hcls
    exact runPacer_grant_lb interval rest _ c (grantTime interval ps c rt)
      (setLast_last_same ps c _) g hg hcls.symm

theorem runPacer_fifo (interval : CallClass → Nat) :
    ∀ (reqs : List (CallClass × Nat)) (ps : PacerState),
      (runPacer interval ps reqs).map (fun g => (g.1, g.2.1)) = reqs := by
  intro reqs
  induction reqs with
  | nil =>
    intro ps
    rfl
  | cons r rest ih =>
    intro ps
    rcases r with ⟨c, rt⟩
    simp only [runPacer, List.map_cons, ih]

theorem runPacer_independent (interval : CallClass → Nat) (cls : CallClass) :
    ∀ (reqs : List (CallClass × Nat)) (ps1 ps2 : PacerState),
      ps1.last cls = ps2.last cls →
      runPacer interval ps1 (reqs.filter (fun r => r.1 == cls)) =
        (runPacer interval ps2 reqs).filter (fun g => g.1 == cls) := by
  intro reqs
  induction reqs with
  | nil =>
    intro ps1 ps2 _
    rfl
  | cons r rest ih =>
    intro ps1 ps2 hagree
    rcases r with ⟨c, rt⟩
    by_cases hc : c = cls
    · subst hc
      have hg : grantTime interval ps1 c rt = grantTime interval ps2 c rt := by
        simp [grantTime, hagree]
      simp only [List.filter_cons, beq_self_eq_true, if_pos, runPacer, hg,
        List.cons.injEq, true_and]
      exact ih (ps1.setLast c (grantTime interval ps2 c rt))
        (ps2.setLast c (grantTime interval ps2 c rt))
        (by rw [setLast_last_same, setLast_last_same])
    · have hbeq : (c == cls) = false := by
        simp [hc]
      simp only [List.filter_cons, hbeq, if_neg, Bool.false_eq_true, not_false_iff,
        runPacer]
      exact ih ps1 (ps2.setLast c (grantTime interval ps2 c rt))
        (by rw [setLast_last_other ps2 c cls _ hc]; exact hagree)

/-- C5: permitted calls of one class are never closer together than the
configured interval (pairwise, over the serialized request queue); within a
class (indeed over the whole queue) permitted calls come back in
first-come-first-served order with monotone grant times; and a class's grants
are exactly what its own requests alone would produce — requests of other
classes do not block it. -/
theorem pacer_spec (interval : CallClass → Nat) (reqs : List (CallClass × Nat))
    (ps : PacerState) :
    ((runPacer interval ps reqs).Pairwise
      (fun g1 g2 => g1.1 = g2.1 → g1.2.2 + interval g1.1 ≤ g2.2.2)) ∧
    ((runPacer interval ps reqs).map (fun g => (g.1, g.2.1)) = reqs) ∧
    ((runPacer interval ps reqs).Pairwise
      (fun g1 g2 => g1.1 = g2.1 → g1.2.2 ≤ g2.2.2)) ∧
    (∀ cls, runPacer interval ps (reqs.filter (fun r => r.1 == cls)) =
      (runPacer interval ps reqs).filter (fun g => g.1 == cls)) := by
  refine ⟨runPacer_spacing interval reqs ps, runPacer_fifo interval reqs ps, ?_, ?_⟩
  · refine (runPacer_spacing interval reqs ps).imp ?_
    intro g1 g2 h hcls
    have := h hcls
    omega
  · intro cls
    exact runPacer_independent interval cls reqs ps ps rfl

/-- C7: unfollowing an account already not followed yields a
success-equivalent outcome (no hard failure distinguishable from success);
the capability call is issued at most once — exactly once with a valid
session, zero times otherwise — and an upstream failure is reported in the
outcome with success = false rather than retried. -/
theorem unfollow_idempotent_spec (st : Store) (ttl tok now : Nat) (ps : PacerState)
    (interval : CallClass → Nat) :
    (∀ upstream, (unfollowExec st ttl tok now ps interval upstream).2.2.1 ≤ 1) ∧
    (∀ upstream s, (access st ttl tok now).2 = Except.ok s →
      (unfollowExec st ttl tok now ps interval upstream).2.2.1 = 1 ∧
      (unfollowExec st ttl tok now ps interval upstream).2.2.2 =
        Except.ok (normalizeUnfollow upstream)) ∧
    ((normalizeUnfollow UpstreamUnfollowResult.alreadyNotFollowing).success = true) ∧
    ((normalizeUnfollow UpstreamUnfollowResult.rateLimited).success = false ∧
      (normalizeUnfollow UpstreamUnfollowResult.targetNotFound).success = false ∧
      (normalizeUnfollow UpstreamUnfollowResult.transientError).success = false) := by
  refine ⟨?_, ?_, rfl, rfl, rfl, rfl⟩
  · intro upstream
    rcases h : access st ttl tok now with ⟨st2, r⟩
    unfold unfollowExec
    rw [h]
    cases r
    · simp
    · simp
  · intro upstream s h2
    rcases h : access st ttl tok now with ⟨st2, r⟩
    rw [h] at h2
    simp only at h2
    subst h2
    unfold unfollowExec
    rw [h]
    exact ⟨rfl, rfl⟩

/-- Witness for C7 on the concrete store: a valid session, an
already-not-following upstream response, one call issued, success reported. -/
theorem unfollow_idempotent_spec_witness :
    (unfollowExec storeScenario 10 5 9 { lastBulk := none, lastUnfollow := none }
        (fun _ => 15) UpstreamUnfollowResult.alreadyNotFollowing).2.2.1 = 1 ∧
    (unfollowExec storeScenario 10 5 9 { lastBulk := none, lastUnfollow := none }
        (fun _ => 15) UpstreamUnfollowResult.alreadyNotFollowing).2.2.2 =
      Except.ok (normalizeUnfollow UpstreamUnfollowResult.alreadyNotFollowing) ∧
    (normalizeUnfollow UpstreamUnfollowResult.alreadyNotFollowing).success = true := by
  have h := (unfollow_idempotent_spec storeScenario 10 5 9
      { lastBulk := none, lastUnfollow := none } (fun _ => 15)).2.1
    UpstreamUnfollowResult.alreadyNotFollowing
    { sessScenario with last_used_at := 9 } rfl
  exact ⟨h.1, h.2,
    (unfollow_idempotent_spec storeScenario 10 5 9
      { lastBulk := none, lastUnfollow := none } (fun _ => 15)).2.2.1⟩

/-- C9: the frontend login rejects with error code 2FA_REQUIRED exactly when
the server responds with HTTP 449; in that case App shows the fixed
2FA-unsupported message and returns to the login view; and App never invokes
the resolve2FA operation. -/
theorem login_2fa_spec :
    (∀ status data, (∃ e, login status data = Except.error e ∧
        e.code = some "2FA_REQUIRED") ↔ status = 449) ∧
    (∀ st data ar status, status = 449 →
      (handleLogin st (login status data) ar).1.currentView = View.loginView ∧
      (handleLogin st (login status data) ar).1.errorMsg = some twoFAMessage) ∧
    (∀ st lr ar, ApiCall.resolve2FACall ∉ (handleLogin st lr ar).2) := by
  refine ⟨?_, ?_, ?_⟩
  · intro status data
    constructor
    · rintro ⟨e, he, hcode⟩
      by_cases hok : responseOk status = true
      · rw [login, if_pos hok] at he
        exact absurd he (by simp)
      · by_cases h449 : status = 449
        · exact h449
        · rw [login, if_neg hok, if_neg h449] at he
          have : Option.some "2FA_REQUIRED" = none := by
            rw [← hcode]
            injection he with he2
            rw [← he2]
          exact absurd this (by simp)
    · intro h449
      subst h449
      refine ⟨{ message := jsOr data.detail_message "2FA required",
                code := some "2FA_REQUIRED",
                sessionToken := data.detail_session_token }, ?_, rfl⟩
      rw [login, if_neg (by decide), if_pos rfl]
  · intro st data ar status h449
    subst h449
    rw [login, if_neg (by decide), if_pos rfl]
    simp [handleLogin]
  · intro st lr ar
    cases lr with
    | error e => simp [handleLogin]
    | ok d =>
      cases ar with
      | error e => simp [handleLogin]
      | ok a => simp [handleLogin]

/-- Witness for C9 at status 449 with a concrete response body. -/
theorem login_2fa_spec_witness :
    ((handleLogin appInit (login 449 dataScenario)
        (Except.ok (analyze 9 capScenario cfgScenario))).1.currentView =
      View.loginView ∧
    (handleLogin appInit (login 449 dataScenario)
        (Except.ok (analyze 9 capScenario cfgScenario))).1.errorMsg =
      some twoFAMessage) ∧
    ApiCall.resolve2FACall ∉
      (handleLogin appInit (login 449 dataScenario)
        (Except.ok (analyze 9 capScenario cfgScenario))).2 :=
  ⟨login_2fa_spec.2.1 appInit dataScenario
      (Except.ok (analyze 9 capScenario cfgScenario)) 449 rfl,
   login_2fa_spec.2.2 appInit (login 449 dataScenario)
      (Except.ok (analyze 9 capScenario cfgScenario))⟩

theorem runUnfollows_mem (attempts : List (Nat × Bool)) :
    ∀ (st : ResultsListState) (x : Nat),
      x ∈ (runUnfollows st attempts).unfollowedUsers ↔
        x ∈ st.unfollowedUsers ∨ x ∈ (attempts.filter Prod.snd).map Prod.fst := by
  induction attempts with
  | nil =>
    intro st x
    simp [runUnfollows]
  | cons a rest ih =>
    intro st x
    rcases a with ⟨uid, succ⟩
    have hstep : runUnfollows st ((uid, succ) :: rest) =
        runUnfollows (handleUnfollow st uid succ) rest := rfl
    rw [hstep, ih]
    cases succ
    · simp [handleUnfollow, List.filter_cons]
    · simp only [handleUnfollow, if_pos rfl, List.filter_cons]
      simp [List.mem_cons]
      tauto

/-- C10: after any sequence of unfollow attempts, the displayed rows are
exactly the analysis results, in their original order, minus the users whose
unfollow resolved successfully; a rejected unfollow changes no row and sets
a non-empty error message on its row. -/
theorem results_list_spec (results : List NonFollower)
    (attempts : List (Nat × Bool)) :
    (displayedResults results (runUnfollows { unfollowedUsers := [] } attempts) =
      results.filter (fun u =>
        ! decide (u.user_id ∈ (attempts.filter Prod.snd).map Prod.fst))) ∧
    (∀ st uid, handleUnfollow st uid false = st) ∧
    (∀ st uid results0,
      displayedResults results0 (handleUnfollow st uid false) =
        displayedResults results0 st) ∧
    (∀ rs e, (handleConfirm rs (Except.error e)).error ≠ "") := by
  refine ⟨?_, fun st uid => rfl, fun st uid results0 => rfl, ?_⟩
  · apply List.filter_congr
    intro u _
    have hm := runUnfollows_mem attempts { unfollowedUsers := [] } u.user_id
    simp only [List.not_mem_nil, false_or] at hm
    simp [hm]
  · intro rs e
    simp only [handleConfirm, jsOr]
    by_cases hmsg : e.message = ""
    · simp only [if_pos hmsg]
      decide
    · simp only [if_neg hmsg]
      exact hmsg

end Trimgram
